import Mathlib

/-!
Capture/record/export session controller — a shallow embedding

This file embeds the stateful core of `src/app/page.tsx` (the `Home`
component of the video-recording studio page): the session state held in
React `useState`/`useRef` hooks and the operations that mutate it
(`prepareStudio`, `startRecording`, `stopRecording`, `pauseRecording`,
`resumeRecording`, `beginCountdown`, the countdown/elapsed interval
ticks, the `MediaRecorder` callbacks `ondataavailable`/`onstop`, and the
file-name computation of `downloadRecording`).

Modelling conventions:
* A `MediaStream` is reduced to which kinds of tracks it carries
  (video / audio) — the only facts the controller inspects or the spec
  talks about.
* A blob URL (`URL.createObjectURL(blob)`) is identified with the byte
  content of its blob, so `recordedUrl : Option (List Nat)` and
  revocation is recorded in the ghost field `revokedUrls`.
* Encoded fragments (`BlobPart`s delivered to `ondataavailable`) are
  byte lists; the `Blob` constructed in `onstop` concatenates them.
* Browser timers become booleans/counters: `timerActive` mirrors
  `timerRef.current !== null`, and the 1-second interval callbacks are
  explicit `elapsedTick` / `countdownTick` transitions.
* Asynchronous `recorder.onstop` is the separate `finalize` transition:
  the recorder handed to `recorder.stop()` waits in `stopping` until its
  `onstop` closure runs.
* Environment behaviour (permission grants, `MediaRecorder.isTypeSupported`)
  is passed in as explicit parameters (`AcqEnv`, `supported`).
-/

inductive RecorderState where
  | idle
  | recording
  | paused
deriving DecidableEq, Repr

inductive CaptureSource where
  | camera
  | screen
deriving DecidableEq, Repr

/-- The track content of a `MediaStream` as far as the controller cares:
whether it carries video and whether it carries audio tracks. -/
structure MediaStream where
  video : Bool
  audio : Bool
deriving DecidableEq, Repr

/-- A `MediaRecorder` together with the `chunks` array captured by the
closures installed in `startRecording`. -/
structure Recorder where
  mimeType : String
  chunks : List (List Nat)
deriving DecidableEq, Repr

/-- The session state: every `useState` hook of `Home` plus the refs
`recorderRef`, `streamRef`, `timerRef`, the pending-`onstop` recorder,
and the ghost list of revoked object URLs. -/
structure Session where
  recorderState : RecorderState
  recordedUrl : Option (List Nat)
  revokedUrls : List (List Nat)
  error : Option String
  isStudioReady : Bool
  countdown : Option Nat
  elapsedSeconds : Nat
  overlayText : String
  projectTitle : String
  captureSource : CaptureSource
  includeMicrophone : Bool
  showOverlay : Bool
  recorder : Option Recorder
  stopping : Option Recorder
  stream : Option MediaStream
  timerActive : Bool
deriving DecidableEq, Repr

/-- The constant COUNTDOWN_SECONDS from the source. -/
def COUNTDOWN_SECONDS : Nat := 3

/-- The initial values of the `useState` hooks and refs. -/
def initialSession : Session where
  recorderState := RecorderState.idle
  recordedUrl := none
  revokedUrls := []
  error := none
  isStudioReady := false
  countdown := none
  elapsedSeconds := 0
  overlayText := "Здравствуйте! Готов записать ваше видео."
  projectTitle := "Мой проект"
  captureSource := CaptureSource.camera
  includeMicrophone := true
  showOverlay := true
  recorder := none
  stopping := none
  stream := none
  timerActive := false

def cameraFailMsg : String := "Не удалось получить доступ к камере."

def screenFailMsg : String := "Не удалось получить доступ к экрану."

def playFailMsg : String := "Не удалось автоматически воспроизвести предварительный просмотр."

def noSourceMsg : String := "Нет активного источника для записи. Включите студию."

def unsupportedMsg : String := "Ваш браузер не поддерживает запись видео WebM."

/-- The helper resetTimer: clear the elapsed interval and zero the counter. -/
def resetTimer (s : Session) : Session :=
  { s with timerActive := false, elapsedSeconds := 0 }

/-- The helper teardownStream: stop all tracks and drop the stream ref. -/
def teardownStream (s : Session) : Session :=
  { s with stream := none }

/-- The helper startTimer: `resetTimer()` then install the 1-second interval. -/
def startTimer (s : Session) : Session :=
  { s with timerActive := true, elapsedSeconds := 0 }

/-- One firing of the elapsed interval callback
(`setElapsedSeconds((prev) => prev + 1)`). -/
def elapsedTick (s : Session) : Session :=
  if s.timerActive then { s with elapsedSeconds := s.elapsedSeconds + 1 } else s

/-- Outcomes the environment chooses during one `prepareStudio` run:
whether `getUserMedia` (camera), `getDisplayMedia` (screen) and the
best-effort microphone `getUserMedia` succeed, and whether the preview
`video.play()` succeeds.  A failure carries `some m` when the thrown
value is an `Error` with non-empty message `m` (used verbatim), `none`
otherwise (the source-specific fallback message is used). -/
structure AcqEnv where
  cameraResult : Except (Option String) Unit
  screenResult : Except (Option String) Unit
  micOk : Bool
  playOk : Bool

/-- The helper attachStreamToVideo: its only observable session effect is the error
set when `video.play()` rejects. -/
def attachStream (playOk : Bool) (s : Session) : Session :=
  if playOk then s else { s with error := some playFailMsg }

/-- The operation prepareStudio(source, mic): clear the error, drop studio-ready,
tear down the previous stream, then acquire per source.  For `screen`,
a requested microphone is a separate best-effort acquisition whose
failure is only logged (`console.warn`).  Acquisition failure sets the
error (the thrown message or a source-specific fallback) and tears the
stream down again. -/
def prepareStudio (source : CaptureSource) (mic : Bool) (env : AcqEnv)
    (s : Session) : Session :=
  let s0 := teardownStream { s with error := none, isStudioReady := false }
  match source with
  | CaptureSource.camera =>
    match env.cameraResult with
    | Except.ok _ =>
      let st : MediaStream := { video := true, audio := mic }
      { attachStream env.playOk { s0 with stream := some st } with
          isStudioReady := true }
    | Except.error m =>
      teardownStream { s0 with error := some (m.getD cameraFailMsg) }
  | CaptureSource.screen =>
    match env.screenResult with
    | Except.ok _ =>
      let st : MediaStream := { video := true, audio := mic && env.micOk }
      { attachStream env.playOk { s0 with stream := some st } with
          isStudioReady := true }
    | Except.error m =>
      teardownStream { s0 with error := some (m.getD screenFailMsg) }

/-- The preference-ordered `supportedTypes` list of `createRecorder`. -/
def supportedTypes : List String :=
  ["video/webm;codecs=vp9,opus", "video/webm;codecs=vp8,opus", "video/webm"]

/-- The helper createRecorder(stream): pick the first supported mime type, throw
if none is. -/
def createRecorder (supported : String → Bool) : Except String Recorder :=
  match supportedTypes.find? (fun t => supported t) with
  | some t => Except.ok { mimeType := t, chunks := [] }
  | none => Except.error unsupportedMsg

/-- The ondataavailable handler: push the chunk when `event.data.size > 0`. -/
def onData (frag : List Nat) (r : Recorder) : Recorder :=
  if frag ≠ [] then { r with chunks := r.chunks ++ [frag] } else r

/-- Delivery of one encoder fragment to the `chunks` closure: the live
recorder if one exists, else a recorder awaiting its `onstop`. -/
def dataAvailable (frag : List Nat) (s : Session) : Session :=
  match s.recorder with
  | some r => { s with recorder := some (onData frag r) }
  | none =>
    match s.stopping with
    | some r => { s with stopping := some (onData frag r) }
    | none => s

/-- The operation startRecording: require an active stream (else set the
no-active-source error and return); revoke and clear any previous
finalized artifact; build the recorder (catching the unsupported-format
throw into the error field); on success start it, enter `recording` and
start the elapsed timer. -/
def startRecording (supported : String → Bool) (s : Session) : Session :=
  match s.stream with
  | none => { s with error := some noSourceMsg }
  | some _ =>
    let s1 :=
      match s.recordedUrl with
      | some u => { s with revokedUrls := s.revokedUrls ++ [u], recordedUrl := none }
      | none => s
    match createRecorder supported with
    | Except.error msg => { s1 with error := some msg }
    | Except.ok r =>
      startTimer { s1 with recorder := some r, recorderState := RecorderState.recording }

/-- The operation stopRecording, guarded by `recorderRef.current && recorderState !== "idle"`:
Hand the recorder to its pending `onstop`, release the stream, clear
studio-ready and any countdown.  The state transition to `idle` happens
only in `finalize`. -/
def stopRecording (s : Session) : Session :=
  match s.recorder with
  | none => s
  | some r =>
    if s.recorderState = RecorderState.idle then s
    else
      { s with recorder := none, stopping := some r, stream := none,
               isStudioReady := false, countdown := none }

/-- The `onstop` callback: build the blob from the collected chunks
(in arrival order), publish its URL, return to `idle`, reset the timer. -/
def finalize (s : Session) : Session :=
  match s.stopping with
  | none => s
  | some r =>
    resetTimer { s with recordedUrl := some r.chunks.flatten,
                        recorderState := RecorderState.idle, stopping := none }

/-- The operation pauseRecording: only when a recorder exists and we are `recording`;
stop the elapsed interval, keep the counter value. -/
def pauseRecording (s : Session) : Session :=
  match s.recorder with
  | none => s
  | some _ =>
    if s.recorderState = RecorderState.recording then
      { s with recorderState := RecorderState.paused, timerActive := false }
    else s

/-- The operation resumeRecording: only when a recorder exists and we are `paused`;
re-enter `recording` and call `startTimer()` (which zeroes the counter). -/
def resumeRecording (s : Session) : Session :=
  match s.recorder with
  | none => s
  | some _ =>
    if s.recorderState = RecorderState.paused then
      startTimer { s with recorderState := RecorderState.recording }
    else s

/-- The operation beginCountdown: a no-op unless `countdown === null` and the state
is `idle`; otherwise arm the countdown at `COUNTDOWN_SECONDS`. -/
def beginCountdown (s : Session) : Session :=
  if s.countdown ≠ none ∨ s.recorderState ≠ RecorderState.idle then s
  else { s with countdown := some COUNTDOWN_SECONDS }

/-- One firing of the countdown interval: decrement `remaining`; at zero,
clear the countdown and invoke `startRecording`. -/
def countdownTick (supported : String → Bool) (s : Session) : Session :=
  match s.countdown with
  | none => s
  | some n =>
    if n - 1 = 0 then startRecording supported { s with countdown := none }
    else { s with countdown := some (n - 1) }

/-- Iterated countdown: `n` further firings of the countdown interval. -/
def ticks (supported : String → Bool) : Nat → Session → Session
  | 0, s => s
  | n + 1, s => ticks supported n (countdownTick supported s)

/-- Allowed file-name characters: the class `[a-zA-Z0-9\-_]` of the
sanitizing regex in `downloadRecording`. -/
def isAllowedChar (c : Char) : Bool :=
  ('a' ≤ c && c ≤ 'z') || ('A' ≤ c && c ≤ 'Z') || ('0' ≤ c && c ≤ '9')
    || c = '-' || c = '_'

/-- The replacement `title.replace(/[^a-zA-Z0-9\-_]+/g, "_")` over the character list:
each maximal run of disallowed characters becomes one `'_'`.  The flag
records whether we are inside a run whose `'_'` was already emitted. -/
def sanitizeAux : Bool → List Char → List Char
  | _, [] => []
  | inRun, c :: rest =>
    if isAllowedChar c then c :: sanitizeAux false rest
    else if inRun then sanitizeAux true rest
    else '_' :: sanitizeAux true rest

/-- The sanitized project title. -/
def sanitizeTitle (title : String) : String :=
  String.mk (sanitizeAux false title.data)

/-- The file name computed by `downloadRecording`:
``${projectTitle.replace(/[^a-zA-Z0-9\-_]+/g, "_") || "video"}.webm`` —
the `"video"` fallback applies exactly when the sanitized title is the
empty string (the only falsy string). -/
def downloadFileName (title : String) : String :=
  (if sanitizeTitle title = "" then "video" else sanitizeTitle title) ++ ".webm"

/-- The discrete events that drive the controller: user actions, a
firing of one of the two interval timers, and the encoder callbacks.
Events carry the environment's choices (acquisition outcomes, the
`isTypeSupported` predicate, the fragment bytes). -/
inductive Event where
  | enableStudio (env : AcqEnv)
  | selectSource (src : CaptureSource) (env : AcqEnv)
  | toggleMicrophone (value : Bool) (env : AcqEnv)
  | beginCountdown
  | countdownFires (supported : String → Bool)
  | secondTick
  | pause
  | resume
  | stop
  | fragment (frag : List Nat)
  | encoderStopped
  | editTitle (t : String)
  | editOverlay (t : String)
  | setShowOverlay (b : Bool)

/-- The event-step function: dispatch to the handler the UI wires to
each event.  `selectSource`/`toggleMicrophone` update the setting and
re-run `prepareStudio` only when the studio is already enabled. -/
def step (e : Event) (s : Session) : Session :=
  match e with
  | Event.enableStudio env => prepareStudio s.captureSource s.includeMicrophone env s
  | Event.selectSource src env =>
    let s1 := { s with captureSource := src }
    if s.isStudioReady then prepareStudio src s.includeMicrophone env s1 else s1
  | Event.toggleMicrophone v env =>
    let s1 := { s with includeMicrophone := v }
    if s.isStudioReady then prepareStudio s.captureSource v env s1 else s1
  | Event.beginCountdown => beginCountdown s
  | Event.countdownFires supported => countdownTick supported s
  | Event.secondTick => elapsedTick s
  | Event.pause => pauseRecording s
  | Event.resume => resumeRecording s
  | Event.stop => stopRecording s
  | Event.fragment frag => dataAvailable frag s
  | Event.encoderStopped => finalize s
  | Event.editTitle t => { s with projectTitle := t }
  | Event.editOverlay t => { s with overlayText := t }
  | Event.setShowOverlay b => { s with showOverlay := b }

/-- The states the controller can be in, starting from the initial
render and following any sequence of events. -/
inductive Reachable : Session → Prop
  | init : Reachable initialSession
  | next : ∀ {s : Session} (e : Event), Reachable s → Reachable (step e s)

/-- The inductive invariant tying the countdown, the recorder ref, the
pending `onstop`, and the recorder state together. -/
def SessionInv (s : Session) : Prop :=
  (s.countdown ≠ none → s.recorderState = RecorderState.idle) ∧
  (s.recorderState = RecorderState.idle → s.recorder = none) ∧
  (s.stopping ≠ none → s.recorder = none) ∧
  (s.stopping ≠ none → s.recorderState ≠ RecorderState.idle) ∧
  (∀ n, s.countdown = some n → 0 < n)

/-! Concrete fixtures used by witnesses and counterexamples -/

/-- An environment where every acquisition and the preview succeed. -/
def envOk : AcqEnv where
  cameraResult := Except.ok ()
  screenResult := Except.ok ()
  micOk := true
  playOk := true

/-- A studio-ready session: camera + microphone enabled from the initial
state, everything granted. -/
def sReadyFix : Session :=
  prepareStudio CaptureSource.camera true envOk initialSession

/-- A freshly started recording on `sReadyFix`, every format supported. -/
def sRecFix : Session := startRecording (fun _ => true) sReadyFix

/-! C1 — export file-name sanitization -/

/-- C1 counterexample: the sanitizing regex `/[^a-zA-Z0-9\-_]+/g` carries
a `+`, so a whole run of disallowed characters collapses into one `_`:
the title `"My Project!! 2024"` yields base `"My_Project_2024"`, not the
claimed `"My_Project__2024"`; and `"???"` sanitizes to `"_"` (non-empty),
so the `"video"` fallback is not taken. -/
theorem sanitize_per_char_refuted :
    downloadFileName "My Project!! 2024" ≠ "My_Project__2024.webm" ∧
    downloadFileName "My Project!! 2024" = "My_Project_2024.webm" ∧
    downloadFileName "???" ≠ "video.webm" ∧
    downloadFileName "???" = "_.webm" := by decide

theorem sanitizeAux_skip_run (cs rest : List Char)
    (hcs : ∀ c ∈ cs, isAllowedChar c = false) :
    sanitizeAux true (cs ++ rest) = sanitizeAux true rest := by
  induction cs with
  | nil => rfl
  | cons c cs ih =>
    have hc : isAllowedChar c = false := hcs c (List.mem_cons_self c cs)
    simp only [List.cons_append, sanitizeAux, hc, if_neg, Bool.false_eq_true,
      if_false, if_true]
    exact ih (fun d hd => hcs d (List.mem_cons_of_mem c hd))

theorem sanitizeAux_flag_eq (rest : List Char)
    (hrest : ∀ c, rest.head? = some c → isAllowedChar c = true) :
    sanitizeAux true rest = sanitizeAux false rest := by
  cases rest with
  | nil => rfl
  | cons c cs =>
    have hc : isAllowedChar c = true := hrest c rfl
    simp [sanitizeAux, hc]

theorem sanitizeAux_empty_iff (l : List Char) :
    sanitizeAux false l = [] ↔ l = [] := by
  cases l with
  | nil => simp [sanitizeAux]
  | cons c cs =>
    simp only [sanitizeAux]
    by_cases hc : isAllowedChar c <;> simp [hc]

/-- C1 amended: the export base name is the title with every maximal run
of characters outside `[A-Za-z0-9_-]` replaced by a single `_`
(`"My Project!! 2024"` → `"My_Project_2024"`); the default base name
`"video"` is used exactly when the sanitized title is empty, which
happens only for the empty title — a title of only disallowed
characters such as `"???"` sanitizes to `"_"`, not to the default. -/
theorem sanitize_run_collapse_fallback :
    downloadFileName "My Project!! 2024" = "My_Project_2024.webm" ∧
    downloadFileName "???" = "_.webm" ∧
    downloadFileName "" = "video.webm" ∧
    (∀ t : String, sanitizeTitle t = "" ↔ t = "") ∧
    (∀ cs rest : List Char, cs ≠ [] →
      (∀ c ∈ cs, isAllowedChar c = false) →
      (∀ c, rest.head? = some c → isAllowedChar c = true) →
      sanitizeAux false (cs ++ rest) = '_' :: sanitizeAux false rest) := by
  refine ⟨by decide, by decide, by decide, ?_, ?_⟩
  · intro t
    constructor
    · intro h
      have hd : sanitizeAux false t.data = [] := by
        have := congrArg String.data h
        simpa [sanitizeTitle] using this
      have hdata : t.data = [] := (sanitizeAux_empty_iff t.data).mp hd
      cases t with
      | mk data =>
        simp only [String.data] at hdata
        subst hdata
        rfl
    · intro h
      subst h
      rfl
  · intro cs rest hne hcs hrest
    cases cs with
    | nil => exact absurd rfl hne
    | cons c cs' =>
      have hc : isAllowedChar c = false := hcs c (List.mem_cons_self c cs')
      have hcs' : ∀ d ∈ cs', isAllowedChar d = false :=
        fun d hd => hcs d (List.mem_cons_of_mem c hd)
      simp only [List.cons_append, sanitizeAux, hc, Bool.false_eq_true,
        if_false, List.append_eq]
      rw [sanitizeAux_skip_run cs' rest hcs', sanitizeAux_flag_eq rest hrest]

/-- Witness for the amended C1 theorem at concrete inputs. -/
theorem sanitize_run_collapse_fallback_witness :
    (sanitizeTitle "ab" = "" ↔ "ab" = "") ∧
    sanitizeAux false (['?', '!'] ++ ['a']) = '_' :: sanitizeAux false ['a'] :=
  ⟨sanitize_run_collapse_fallback.2.2.2.1 "ab",
   sanitize_run_collapse_fallback.2.2.2.2 ['?', '!'] ['a'] (by decide)
     (by decide)
     (by intro c hc; simp only [List.head?] at hc; cases hc; decide)⟩

/-! C2 — start-recording with no acceptable encoding format -/

/-- The studio-ready fixture with a previously finalized artifact. -/
def sReadyUrlFix : Session := { sReadyFix with recordedUrl := some [7] }

/-- C2 counterexample: with an active stream, a previously finalized
artifact and no supported format, `startRecording` does set the
user-visible error and leaves the recorder state untouched — but it has
already revoked and cleared the previous artifact by the time
`createRecorder` throws, so "all other session fields are unchanged (in
particular the previously finalized artifact is not released)" is
false. -/
theorem unsupported_keeps_artifact_refuted :
    sReadyUrlFix.recordedUrl = some [7] ∧
    sReadyUrlFix.revokedUrls = [] ∧
    (startRecording (fun _ => false) sReadyUrlFix).error = some unsupportedMsg ∧
    (startRecording (fun _ => false) sReadyUrlFix).recorderState =
      sReadyUrlFix.recorderState ∧
    (startRecording (fun _ => false) sReadyUrlFix).recordedUrl = none ∧
    (startRecording (fun _ => false) sReadyUrlFix).revokedUrls = [[7]] := by
  decide

/-- C2 amended: when start-recording runs with an active stream and no
acceptable encoding format, it sets the user-visible unsupported-format
error and performs no state transition — the whole session is unchanged
except that the error is set and the previously finalized artifact (if
any) has been revoked and cleared before the failed encoder-creation
attempt. -/
theorem startRecording_unsupported_frame (supported : String → Bool)
    (s : Session) (st : MediaStream) (hs : s.stream = some st)
    (hunsup : supportedTypes.find? (fun t => supported t) = none) :
    startRecording supported s =
      { s with error := some unsupportedMsg,
               recordedUrl := none,
               revokedUrls := s.revokedUrls ++ s.recordedUrl.toList } := by
  cases hru : s.recordedUrl <;>
    simp [startRecording, hs, createRecorder, hunsup, hru, Option.toList]

/-- Witness for the amended C2 theorem at a concrete input. -/
theorem startRecording_unsupported_frame_witness :
    startRecording (fun _ => false) sReadyUrlFix =
      { sReadyUrlFix with
          error := some unsupportedMsg,
          recordedUrl := none,
          revokedUrls := sReadyUrlFix.revokedUrls ++ sReadyUrlFix.recordedUrl.toList } :=
  startRecording_unsupported_frame (fun _ => false) sReadyUrlFix
    { video := true, audio := true } (by decide) (by decide)

/-! C3 — clearing of `lastError` -/

/-- The studio-ready fixture carrying a stale error message. -/
def sStaleFix : Session := { sReadyFix with error := some "stale" }

/-- C3 counterexample: `startRecording` does not clear the error field at
its start, so a successful start-recording (state reaches `recording`)
leaves the stale message in place — refuting "every operation that can
fail clears the lastError field at its start". -/
theorem startRecording_keeps_stale_error_cex :
    sStaleFix.error = some "stale" ∧
    (startRecording (fun _ => true) sStaleFix).recorderState =
      RecorderState.recording ∧
    (startRecording (fun _ => true) sStaleFix).error = some "stale" := by
  decide

/-- C3 amended: stream acquisition (`prepareStudio`) clears `lastError`
at its start, so a successful acquisition ends with no error message;
start-recording, however, does not clear `lastError` at its start — a
successful start-recording leaves any previous error message in place. -/
theorem lastError_clearing_amended :
    (∀ (source : CaptureSource) (mic : Bool) (env : AcqEnv) (s : Session),
      env.playOk = true →
      (source = CaptureSource.camera → env.cameraResult = Except.ok ()) →
      (source = CaptureSource.screen → env.screenResult = Except.ok ()) →
      (prepareStudio source mic env s).error = none) ∧
    (∀ (supported : String → Bool) (s : Session) (st : MediaStream)
      (r : Recorder),
      s.stream = some st →
      createRecorder supported = Except.ok r →
      (startRecording supported s).recorderState = RecorderState.recording ∧
      (startRecording supported s).error = s.error) := by
  constructor
  · intro source mic env s hplay hcam hscr
    cases source with
    | camera =>
      have h := hcam rfl
      simp [prepareStudio, h, attachStream, hplay, teardownStream]
    | screen =>
      have h := hscr rfl
      simp [prepareStudio, h, attachStream, hplay, teardownStream]
  · intro supported s st r hs hcr
    cases hru : s.recordedUrl <;>
      simp [startRecording, hs, hcr, hru, startTimer]

/-- Witness for the amended C3 theorem at concrete inputs. -/
theorem lastError_clearing_amended_witness :
    (prepareStudio CaptureSource.camera true envOk sStaleFix).error = none ∧
    ((startRecording (fun _ => true) sStaleFix).recorderState =
        RecorderState.recording ∧
      (startRecording (fun _ => true) sStaleFix).error = sStaleFix.error) :=
  ⟨lastError_clearing_amended.1 CaptureSource.camera true envOk sStaleFix
      rfl (fun _ => rfl) (fun h => by cases h),
   lastError_clearing_amended.2 (fun _ => true) sStaleFix
      { video := true, audio := true }
      { mimeType := "video/webm;codecs=vp9,opus", chunks := [] }
      (by decide) rfl⟩

/-! C6 — microphone failure during screen capture -/

/-- C6: with the screen source and microphone requested, a failing
microphone acquisition is only logged: the studio still becomes ready
with the video-only screen stream and no user-visible error is set
(assuming the preview plays). -/
theorem screen_mic_failure_still_ready (env : AcqEnv) (s : Session)
    (hscr : env.screenResult = Except.ok ()) (hmic : env.micOk = false)
    (hplay : env.playOk = true) :
    (prepareStudio CaptureSource.screen true env s).isStudioReady = true ∧
    (prepareStudio CaptureSource.screen true env s).error = none ∧
    (prepareStudio CaptureSource.screen true env s).stream =
      some { video := true, audio := false } := by
  simp [prepareStudio, hscr, hmic, hplay, attachStream, teardownStream]

/-- Witness for C6 at a concrete input. -/
theorem screen_mic_failure_still_ready_witness :
    (prepareStudio CaptureSource.screen true
        { cameraResult := Except.ok (), screenResult := Except.ok (),
          micOk := false, playOk := true } initialSession).isStudioReady = true ∧
    (prepareStudio CaptureSource.screen true
        { cameraResult := Except.ok (), screenResult := Except.ok (),
          micOk := false, playOk := true } initialSession).error = none ∧
    (prepareStudio CaptureSource.screen true
        { cameraResult := Except.ok (), screenResult := Except.ok (),
          micOk := false, playOk := true } initialSession).stream =
      some { video := true, audio := false } :=
  screen_mic_failure_still_ready
    { cameraResult := Except.ok (), screenResult := Except.ok (),
      micOk := false, playOk := true } initialSession rfl rfl rfl

/-! C7 — start-recording with no active stream -/

/-- C7: with no active stream, `startRecording` sets the
no-active-source error and changes nothing else: the whole session is
unchanged apart from the error field, so the state stays `idle`, no
encoder is constructed and no timer is started. -/
theorem startRecording_no_stream_noop (supported : String → Bool)
    (s : Session) (h : s.stream = none) :
    startRecording supported s = { s with error := some noSourceMsg } := by
  simp [startRecording, h]

/-- Witness for C7 at a concrete input. -/
theorem startRecording_no_stream_noop_witness :
    startRecording (fun _ => true) initialSession =
      { initialSession with error := some noSourceMsg } :=
  startRecording_no_stream_noop (fun _ => true) initialSession rfl

/-! C9 — begin-countdown guard -/

/-- C9: invoking `beginCountdown` while a countdown is active or while
the state is not `idle` returns the session unchanged — no timer, no
error, no field modified. -/
theorem beginCountdown_noop (s : Session)
    (h : s.countdown ≠ none ∨ s.recorderState ≠ RecorderState.idle) :
    beginCountdown s = s := by
  unfold beginCountdown
  rw [if_pos h]

/-- Witness for C9 at a concrete input (a paused session). -/
theorem beginCountdown_noop_witness :
    beginCountdown { initialSession with recorderState := RecorderState.paused } =
      { initialSession with recorderState := RecorderState.paused } :=
  beginCountdown_noop { initialSession with recorderState := RecorderState.paused }
    (Or.inr (by decide))

/-! C4 — elapsed-seconds clock across pause/resume -/

/-- C4: the elapsed counter at a concrete trace.  After starting a
recording and two timer ticks the counter is 2; pausing keeps it at 2
(value retained, timer stopped); but resuming calls `startTimer`, whose
`resetTimer` zeroes the counter — `elapsedSeconds` drops from 2 to 0
inside one recording, so it is not monotonically non-decreasing as the
specification states. -/
theorem elapsed_reset_on_resume_bug :
    sRecFix.recorderState = RecorderState.recording ∧
    (elapsedTick (elapsedTick sRecFix)).elapsedSeconds = 2 ∧
    (pauseRecording (elapsedTick (elapsedTick sRecFix))).elapsedSeconds = 2 ∧
    (pauseRecording (elapsedTick (elapsedTick sRecFix))).timerActive = false ∧
    (resumeRecording (pauseRecording (elapsedTick (elapsedTick sRecFix)))).recorderState =
      RecorderState.recording ∧
    (resumeRecording (pauseRecording (elapsedTick (elapsedTick sRecFix)))).elapsedSeconds =
      0 := by
  decide

/-! C5 — fragment order and concatenation -/

theorem dataAvailable_foldl (fs : List (List Nat)) :
    ∀ (s : Session) (r : Recorder), s.recorder = some r →
      (fs.foldl (fun t f => dataAvailable f t) s).recorder =
        some { r with chunks := r.chunks ++ fs.filter (fun f => f ≠ []) } ∧
      (fs.foldl (fun t f => dataAvailable f t) s).recorderState =
        s.recorderState ∧
      (fs.foldl (fun t f => dataAvailable f t) s).stopping = s.stopping := by
  induction fs with
  | nil => intro s r hr; simp [hr]
  | cons f fs ih =>
    intro s r hr
    have hstep : dataAvailable f s = { s with recorder := some (onData f r) } := by
      simp [dataAvailable, hr]
    have := ih { s with recorder := some (onData f r) } (onData f r) rfl
    obtain ⟨h1, h2, h3⟩ := this
    refine ⟨?_, ?_, ?_⟩
    · rw [List.foldl_cons, hstep, h1]
      by_cases hf : f = []
      · subst hf; simp [onData]
      · simp [onData, hf, List.filter_cons]
    · rw [List.foldl_cons, hstep, h2]
    · rw [List.foldl_cons, hstep, h3]

/-- C5: fragments emitted by the encoder are appended to the pending
sequence in arrival order with empty ones dropped, and finalizing after
stop yields an artifact whose bytes are exactly their concatenation in
that order. -/
theorem fragments_in_order_concat (fs : List (List Nat)) (s : Session)
    (r : Recorder) (hr : s.recorder = some r) (hch : r.chunks = [])
    (hst : s.recorderState = RecorderState.recording) :
    (fs.foldl (fun t f => dataAvailable f t) s).recorder =
      some { r with chunks := fs.filter (fun f => f ≠ []) } ∧
    (finalize (stopRecording (fs.foldl (fun t f => dataAvailable f t) s))).recordedUrl =
      some (fs.filter (fun f => f ≠ [])).flatten := by
  obtain ⟨h1, h2, h3⟩ := dataAvailable_foldl fs s r hr
  rw [hch] at h1
  simp only [List.nil_append] at h1
  refine ⟨h1, ?_⟩
  have hni : (fs.foldl (fun t f => dataAvailable f t) s).recorderState ≠
      RecorderState.idle := by
    rw [h2, hst]
    decide
  simp [stopRecording, h1, hni, finalize, resetTimer]

/-- Witness for C5: fragments `[a, b, c]` (with an empty one injected)
yield the artifact `a ++ b ++ c`. -/
theorem fragments_in_order_concat_witness :
    ([[1], [], [2], [3]].foldl (fun t f => dataAvailable f t) sRecFix).recorder =
      some { mimeType := "video/webm;codecs=vp9,opus",
             chunks := [[1], [2], [3]] } ∧
    (finalize (stopRecording
        ([[1], [], [2], [3]].foldl (fun t f => dataAvailable f t) sRecFix))).recordedUrl =
      some [1, 2, 3] :=
  fragments_in_order_concat [[1], [], [2], [3]] sRecFix
    { mimeType := "video/webm;codecs=vp9,opus", chunks := [] }
    (by decide) rfl (by decide)

/-! C8 — stop releases resources; idle and artifact on finalize -/

/-- C8: from either `recording` or `paused` (with the encoder present),
stop releases the capture stream, clears studio-ready and any countdown,
and does not itself change the recorder state or publish the artifact;
the transition to `idle` and the artifact (the concatenated fragments)
arrive with the asynchronous finalize callback. -/
theorem stopRecording_releases_resources (s : Session) (r : Recorder)
    (hr : s.recorder = some r)
    (hst : s.recorderState = RecorderState.recording ∨
      s.recorderState = RecorderState.paused) :
    (stopRecording s).stream = none ∧
    (stopRecording s).isStudioReady = false ∧
    (stopRecording s).countdown = none ∧
    (stopRecording s).recorderState = s.recorderState ∧
    (stopRecording s).recordedUrl = s.recordedUrl ∧
    (stopRecording s).stopping = some r ∧
    (finalize (stopRecording s)).recorderState = RecorderState.idle ∧
    (finalize (stopRecording s)).recordedUrl = some r.chunks.flatten := by
  have hni : s.recorderState ≠ RecorderState.idle := by
    rcases hst with h | h <;> rw [h] <;> decide
  simp [stopRecording, hr, hni, finalize, resetTimer]

/-- Witness for C8: stopping the concrete paused recording. -/
theorem stopRecording_releases_resources_witness :
    (stopRecording (pauseRecording sRecFix)).stream = none ∧
    (stopRecording (pauseRecording sRecFix)).isStudioReady = false ∧
    (stopRecording (pauseRecording sRecFix)).countdown = none ∧
    (stopRecording (pauseRecording sRecFix)).recorderState =
      (pauseRecording sRecFix).recorderState ∧
    (stopRecording (pauseRecording sRecFix)).recordedUrl =
      (pauseRecording sRecFix).recordedUrl ∧
    (stopRecording (pauseRecording sRecFix)).stopping =
      some { mimeType := "video/webm;codecs=vp9,opus", chunks := [] } ∧
    (finalize (stopRecording (pauseRecording sRecFix))).recorderState =
      RecorderState.idle ∧
    (finalize (stopRecording (pauseRecording sRecFix))).recordedUrl =
      some (List.flatten []) :=
  stopRecording_releases_resources (pauseRecording sRecFix)
    { mimeType := "video/webm;codecs=vp9,opus", chunks := [] }
    (by decide) (Or.inr (by decide))

/-! Invariant machinery for reachable states -/

theorem prepareStudio_ghost (source : CaptureSource) (mic : Bool)
    (env : AcqEnv) (s : Session) :
    (prepareStudio source mic env s).recorderState = s.recorderState ∧
    (prepareStudio source mic env s).recorder = s.recorder ∧
    (prepareStudio source mic env s).stopping = s.stopping ∧
    (prepareStudio source mic env s).countdown = s.countdown := by
  cases source with
  | camera =>
    cases hc : env.cameraResult with
    | ok u =>
      cases hp : env.playOk <;>
        simp [prepareStudio, hc, hp, attachStream, teardownStream]
    | error m => simp [prepareStudio, hc, teardownStream]
  | screen =>
    cases hc : env.screenResult with
    | ok u =>
      cases hp : env.playOk <;>
        simp [prepareStudio, hc, hp, attachStream, teardownStream]
    | error m => simp [prepareStudio, hc, teardownStream]

theorem sessionInv_prepareStudio (source : CaptureSource) (mic : Bool)
    (env : AcqEnv) (s : Session) (h : SessionInv s) :
    SessionInv (prepareStudio source mic env s) := by
  obtain ⟨g1, g2, g3, g4⟩ := prepareStudio_ghost source mic env s
  unfold SessionInv at h ⊢
  rw [g1, g2, g3, g4]
  exact h

theorem startRecording_ghost (supported : String → Bool) (s : Session) :
    (startRecording supported s).countdown = s.countdown ∧
    (startRecording supported s).stopping = s.stopping ∧
    (((startRecording supported s).recorderState = s.recorderState ∧
        (startRecording supported s).recorder = s.recorder) ∨
      (startRecording supported s).recorderState = RecorderState.recording) := by
  cases hs : s.stream with
  | none => simp [startRecording, hs]
  | some st =>
    cases hru : s.recordedUrl <;> cases hcr : createRecorder supported <;>
      simp [startRecording, hs, hru, hcr, startTimer]

theorem sessionInv_startRecording (supported : String → Bool) (s : Session)
    (_hidle : s.recorderState = RecorderState.idle)
    (hrec : s.recorder = none) (hstop : s.stopping = none)
    (hcd : s.countdown = none) :
    SessionInv (startRecording supported s) := by
  obtain ⟨g1, g2, g3⟩ := startRecording_ghost supported s
  refine ⟨?_, ?_, ?_, ?_, ?_⟩
  · intro hc
    rw [g1] at hc
    exact absurd hcd hc
  · rcases g3 with ⟨h1, h2⟩ | h1
    · rw [h1, h2]
      exact fun _ => hrec
    · rw [h1]
      intro hh
      exact absurd hh (by decide)
  · intro hh
    rw [g2] at hh
    exact absurd hstop hh
  · intro hh
    rw [g2] at hh
    exact absurd hstop hh
  · intro m hm
    rw [g1, hcd] at hm
    cases hm

theorem sessionInv_beginCountdown (s : Session) (h : SessionInv s) :
    SessionInv (beginCountdown s) := by
  obtain ⟨i1, i2, i3, i4, i5⟩ := h
  unfold beginCountdown
  split
  · exact ⟨i1, i2, i3, i4, i5⟩
  · next hcond =>
    push_neg at hcond
    obtain ⟨hcd, hidle⟩ := hcond
    exact ⟨fun _ => hidle, fun _ => i2 hidle, i3, i4,
           fun m hm => by cases hm; decide⟩

theorem sessionInv_countdownTick (supported : String → Bool) (s : Session)
    (h : SessionInv s) : SessionInv (countdownTick supported s) := by
  obtain ⟨i1, i2, i3, i4, i5⟩ := h
  cases hcd : s.countdown with
  | none =>
    have heq : countdownTick supported s = s := by simp [countdownTick, hcd]
    rw [heq]
    exact ⟨i1, i2, i3, i4, i5⟩
  | some n =>
    have hidle : s.recorderState = RecorderState.idle := i1 (by rw [hcd]; simp)
    have hrec : s.recorder = none := i2 hidle
    have hstop : s.stopping = none := by
      by_contra hs
      exact i4 hs hidle
    by_cases hne : n - 1 = 0
    · have heq : countdownTick supported s =
          startRecording supported { s with countdown := none } := by
        simp [countdownTick, hcd, hne]
      rw [heq]
      exact sessionInv_startRecording supported { s with countdown := none }
        hidle hrec hstop rfl
    · have heq : countdownTick supported s = { s with countdown := some (n - 1) } := by
        simp [countdownTick, hcd, hne]
      rw [heq]
      refine ⟨fun _ => hidle, fun _ => hrec, i3, i4, ?_⟩
      intro m hm
      injection hm with hm
      exact hm ▸ Nat.pos_of_ne_zero hne

theorem sessionInv_elapsedTick (s : Session) (h : SessionInv s) :
    SessionInv (elapsedTick s) := by
  unfold elapsedTick
  split
  · exact h
  · exact h

theorem sessionInv_pauseRecording (s : Session) (h : SessionInv s) :
    SessionInv (pauseRecording s) := by
  obtain ⟨i1, i2, i3, i4, i5⟩ := h
  cases hr : s.recorder with
  | none =>
    have heq : pauseRecording s = s := by simp [pauseRecording, hr]
    rw [heq]
    exact ⟨i1, i2, i3, i4, i5⟩
  | some r =>
    by_cases hst : s.recorderState = RecorderState.recording
    · have heq : pauseRecording s =
          { s with recorderState := RecorderState.paused, timerActive := false } := by
        simp [pauseRecording, hr, hst]
      rw [heq]
      have hcdn : s.countdown = none := by
        by_contra hc
        rw [i1 hc] at hst
        cases hst
      have hstop : s.stopping = none := by
        by_contra hsn
        rw [i3 hsn] at hr
        cases hr
      exact ⟨fun hc => absurd hcdn hc, fun hh => RecorderState.noConfusion hh,
             fun hh => absurd hstop hh, fun hh => absurd hstop hh,
             fun m hm => Option.noConfusion (hcdn.symm.trans hm)⟩
    · have heq : pauseRecording s = s := by simp [pauseRecording, hr, hst]
      rw [heq]
      exact ⟨i1, i2, i3, i4, i5⟩

theorem sessionInv_resumeRecording (s : Session) (h : SessionInv s) :
    SessionInv (resumeRecording s) := by
  obtain ⟨i1, i2, i3, i4, i5⟩ := h
  cases hr : s.recorder with
  | none =>
    have heq : resumeRecording s = s := by simp [resumeRecording, hr]
    rw [heq]
    exact ⟨i1, i2, i3, i4, i5⟩
  | some r =>
    by_cases hst : s.recorderState = RecorderState.paused
    · have heq : resumeRecording s =
          { s with recorderState := RecorderState.recording,
                   timerActive := true, elapsedSeconds := 0 } := by
        simp [resumeRecording, hr, hst, startTimer]
      rw [heq]
      have hcdn : s.countdown = none := by
        by_contra hc
        rw [i1 hc] at hst
        cases hst
      have hstop : s.stopping = none := by
        by_contra hsn
        rw [i3 hsn] at hr
        cases hr
      exact ⟨fun hc => absurd hcdn hc, fun hh => RecorderState.noConfusion hh,
             fun hh => absurd hstop hh, fun hh => absurd hstop hh,
             fun m hm => Option.noConfusion (hcdn.symm.trans hm)⟩
    · have heq : resumeRecording s = s := by simp [resumeRecording, hr, hst]
      rw [heq]
      exact ⟨i1, i2, i3, i4, i5⟩

theorem sessionInv_stopRecording (s : Session) (h : SessionInv s) :
    SessionInv (stopRecording s) := by
  obtain ⟨i1, i2, i3, i4, i5⟩ := h
  cases hr : s.recorder with
  | none =>
    have heq : stopRecording s = s := by simp [stopRecording, hr]
    rw [heq]
    exact ⟨i1, i2, i3, i4, i5⟩
  | some r =>
    by_cases hst : s.recorderState = RecorderState.idle
    · have heq : stopRecording s = s := by simp [stopRecording, hr, hst]
      rw [heq]
      exact ⟨i1, i2, i3, i4, i5⟩
    · have heq : stopRecording s =
          { s with recorder := none, stopping := some r, stream := none,
                   isStudioReady := false, countdown := none } := by
        simp [stopRecording, hr, hst]
      rw [heq]
      exact ⟨fun hc => absurd rfl hc, fun _ => rfl, fun _ => rfl,
             fun _ => hst, fun m hm => Option.noConfusion hm⟩

theorem sessionInv_dataAvailable (frag : List Nat) (s : Session)
    (h : SessionInv s) : SessionInv (dataAvailable frag s) := by
  obtain ⟨i1, i2, i3, i4, i5⟩ := h
  cases hr : s.recorder with
  | some r =>
    have heq : dataAvailable frag s = { s with recorder := some (onData frag r) } := by
      simp [dataAvailable, hr]
    rw [heq]
    refine ⟨i1, ?_, ?_, i4, i5⟩
    · intro hidle
      exact Option.noConfusion (hr.symm.trans (i2 hidle))
    · intro hstop
      exact Option.noConfusion (hr.symm.trans (i3 hstop))
  | none =>
    cases hstp : s.stopping with
    | some r =>
      have heq : dataAvailable frag s =
          { s with stopping := some (onData frag r) } := by
        simp [dataAvailable, hr, hstp]
      rw [heq]
      have hsne : s.stopping ≠ none := by rw [hstp]; simp
      exact ⟨i1, i2, fun _ => i3 hsne, fun _ => i4 hsne, i5⟩
    | none =>
      have heq : dataAvailable frag s = s := by simp [dataAvailable, hr, hstp]
      rw [heq]
      exact ⟨i1, i2, i3, i4, i5⟩

theorem sessionInv_finalize (s : Session) (h : SessionInv s) :
    SessionInv (finalize s) := by
  obtain ⟨i1, i2, i3, i4, i5⟩ := h
  cases hstp : s.stopping with
  | none =>
    have heq : finalize s = s := by simp [finalize, hstp]
    rw [heq]
    exact ⟨i1, i2, i3, i4, i5⟩
  | some r =>
    have hsne : s.stopping ≠ none := by rw [hstp]; simp
    have hrec : s.recorder = none := i3 hsne
    have hcd : s.countdown = none := by
      by_contra hc
      exact i4 hsne (i1 hc)
    have heq : finalize s =
        { s with recordedUrl := some r.chunks.flatten,
                 recorderState := RecorderState.idle, stopping := none,
                 timerActive := false, elapsedSeconds := 0 } := by
      simp [finalize, hstp, resetTimer]
    rw [heq]
    exact ⟨fun _ => rfl, fun _ => hrec, fun hh => absurd rfl hh,
           fun hh => absurd rfl hh,
           fun m hm => Option.noConfusion (hcd.symm.trans hm)⟩

theorem sessionInv_step (e : Event) (s : Session) (h : SessionInv s) :
    SessionInv (step e s) := by
  cases e with
  | enableStudio env =>
    exact sessionInv_prepareStudio s.captureSource s.includeMicrophone env s h
  | selectSource src env =>
    show SessionInv
      (if s.isStudioReady then
        prepareStudio src s.includeMicrophone env { s with captureSource := src }
      else { s with captureSource := src })
    by_cases hready : s.isStudioReady = true
    · rw [if_pos hready]
      exact sessionInv_prepareStudio src s.includeMicrophone env
        { s with captureSource := src } h
    · rw [if_neg hready]
      exact h
  | toggleMicrophone v env =>
    show SessionInv
      (if s.isStudioReady then
        prepareStudio s.captureSource v env { s with includeMicrophone := v }
      else { s with includeMicrophone := v })
    by_cases hready : s.isStudioReady = true
    · rw [if_pos hready]
      exact sessionInv_prepareStudio s.captureSource v env
        { s with includeMicrophone := v } h
    · rw [if_neg hready]
      exact h
  | beginCountdown => exact sessionInv_beginCountdown s h
  | countdownFires supported => exact sessionInv_countdownTick supported s h
  | secondTick => exact sessionInv_elapsedTick s h
  | pause => exact sessionInv_pauseRecording s h
  | resume => exact sessionInv_resumeRecording s h
  | stop => exact sessionInv_stopRecording s h
  | fragment frag => exact sessionInv_dataAvailable frag s h
  | encoderStopped => exact sessionInv_finalize s h
  | editTitle t => exact h
  | editOverlay t => exact h
  | setShowOverlay b => exact h

theorem sessionInv_reachable {s : Session} (h : Reachable s) : SessionInv s := by
  induction h with
  | init =>
    exact ⟨fun hc => absurd rfl hc, fun _ => rfl, fun hc => absurd rfl hc,
           fun hc => absurd rfl hc, fun m hm => Option.noConfusion hm⟩
  | next e _ ih => exact sessionInv_step e _ ih

theorem ticks_complete (supported : String → Bool) :
    ∀ (n : Nat) (s : Session), 0 < n → s.countdown = some n →
      ticks supported n s = startRecording supported { s with countdown := none } := by
  intro n
  induction n with
  | zero => intro s hpos _; exact absurd hpos (by decide)
  | succ m ih =>
    intro s _ hcd
    cases m with
    | zero =>
      simp only [ticks]
      unfold countdownTick
      rw [hcd]
      simp
    | succ k =>
      simp only [ticks]
      have hstep : countdownTick supported s = { s with countdown := some (k + 1) } := by
        unfold countdownTick
        rw [hcd]
        simp
      rw [hstep]
      exact ih { s with countdown := some (k + 1) } (Nat.succ_pos k) rfl

/-! C10 — a begun countdown cannot be cancelled and runs to start -/

/-- C10: in every reachable state with an active countdown, the recorder
state is `idle` and no encoder instance exists, so `stopRecording`,
`pauseRecording` and `resumeRecording` are exact no-ops (their guards
fail); and the countdown of `n` remaining seconds ticks down to zero and
then invokes `startRecording` — after exactly `n` firings of the
countdown interval the session is precisely the result of
`startRecording` on the countdown-cleared state. -/
theorem countdown_runs_to_completion (s : Session) (hr : Reachable s)
    (hc : s.countdown ≠ none) :
    s.recorderState = RecorderState.idle ∧
    s.recorder = none ∧
    stopRecording s = s ∧
    pauseRecording s = s ∧
    resumeRecording s = s ∧
    (∀ (n : Nat) (supported : String → Bool), s.countdown = some n →
      ticks supported n s = startRecording supported { s with countdown := none }) := by
  obtain ⟨i1, i2, i3, i4, i5⟩ := sessionInv_reachable hr
  have hidle := i1 hc
  have hrecn := i2 hidle
  refine ⟨hidle, hrecn, ?_, ?_, ?_, ?_⟩
  · simp [stopRecording, hrecn]
  · simp [pauseRecording, hrecn]
  · simp [resumeRecording, hrecn]
  · intro n supported hcd
    exact ticks_complete supported n s (i5 n hcd) hcd

/-- The state right after beginning the countdown on the initial render. -/
def sCountFix : Session := step Event.beginCountdown initialSession

/-- Witness for C10 on the concrete reachable countdown state. -/
theorem countdown_runs_to_completion_witness :
    sCountFix.recorderState = RecorderState.idle ∧
    sCountFix.recorder = none ∧
    stopRecording sCountFix = sCountFix ∧
    pauseRecording sCountFix = sCountFix ∧
    resumeRecording sCountFix = sCountFix ∧
    ticks (fun _ => true) 3 sCountFix =
      startRecording (fun _ => true) { sCountFix with countdown := none } := by
  obtain ⟨h1, h2, h3, h4, h5, h6⟩ :=
    countdown_runs_to_completion sCountFix
      (Reachable.next Event.beginCountdown Reachable.init) (by decide)
  exact ⟨h1, h2, h3, h4, h5, h6 3 (fun _ => true) (by decide)⟩
